import Mathlib

/-!
Shallow embedding of the MMORPG browser client (`src/game.js`, the
feature-complete middle revision, lines 380-905 of the staged file: the
revision with the game loop, click-to-move homing and the status UI).

Modelling conventions:
* JS numbers are modelled as `ℚ` (exact rational arithmetic in place of
  IEEE doubles; every operation the claims touch is +, -, *, /, min, max
  and comparisons, which agree with the real-number reading the spec uses).
* JS objects used as string-keyed maps are modelled either as functions
  `String → Option α` (the player roster, whose iteration order never
  matters) or as association lists `List (String × α)` in insertion order
  (the avatar catalog, which `parseAvatarImages` iterates).
* The WebSocket transport is an external collaborator (not repository
  code); per the spec's interface description its `send` transmits only
  while the socket is open and otherwise fails silently.  `transportSend`
  models exactly that interface.  The repository's own guards
  (`readyState !== WebSocket.OPEN`) are modelled inside the send
  functions themselves, as in the source.
* `Math.sqrt(d) < 20` (for the homing arrival test) is embedded as
  `d < 400`, which is equivalent for the nonnegative `d = dx*dx + dy*dy`;
  the claim theorem re-states the condition with `Real.sqrt` and proves
  the equivalence.
-/

/-- The four wire directions of an outbound `move` command. -/
inductive Direction
  | up
  | down
  | left
  | right
deriving DecidableEq, Repr

/-- A player's facing, as stored in `player.facing`. -/
inductive Facing
  | north
  | south
  | east
  | west
deriving DecidableEq, Repr

/-- The directions that own a frame set (`parsedFrames` has exactly the
keys `north`, `south`, `east`; west is drawn from the east set). -/
inductive FrameDir
  | north
  | south
  | east
deriving DecidableEq, Repr

/-- An image object: its `src` and the intrinsic dimensions the decoded
bitmap reports (`avatarImg.width`, `avatarImg.height`). -/
structure Image where
  src : String
  width : ℚ
  height : ℚ
deriving DecidableEq, Repr

/-- A per-direction frame table, as in `avatar.frames` and
`avatar.parsedFrames` (`north`, `south`, `east` only). -/
structure Frames where
  north : List Image
  south : List Image
  east : List Image
deriving DecidableEq, Repr

/-- An entry of the avatar catalog `this.avatars`: the wire frames plus
the lazily attached `parsedFrames` marker (absent = `Option.none`). -/
structure Avatar where
  frames : Frames
  parsedFrames : Option Frames
deriving DecidableEq, Repr

/-- One player record of `this.players`. -/
structure Player where
  id : String
  x : ℚ
  y : ℚ
  facing : Facing
  animationFrame : ℕ
  username : String
  avatar : String
deriving DecidableEq, Repr

/-- The UI-level connection status string `this.connectionStatus`. -/
inductive ConnStatus
  | connecting
  | connected
  | disconnected
  | error
deriving DecidableEq, Repr

/-- A WebSocket `readyState`. -/
inductive WsState
  | connecting
  | open
  | closing
  | closed
deriving DecidableEq, Repr

/-- An outbound wire message. -/
inductive OutMsg
  | move (d : Direction)
  | stop
  | join (username : String)
deriving DecidableEq, Repr

/-- The mutable state of the `GameClient` object (middle revision).
`decodeLog` is an observation field recording, in order, every avatar
name for which `parseAvatarImages` started decoding frame images; it
stands for the `new Image()` / `img.src := ...` side effects. -/
structure GameState where
  worldWidth : ℚ
  worldHeight : ℚ
  myPlayerId : Option String
  players : String → Option Player
  avatars : List (String × Avatar)
  websocket : Option WsState
  cameraX : ℚ
  cameraY : ℚ
  canvasWidth : ℚ
  canvasHeight : ℚ
  keyUp : Bool
  keyDown : Bool
  keyLeft : Bool
  keyRight : Bool
  isMoving : Bool
  clickTarget : Option (ℚ × ℚ)
  connectionStatus : ConnStatus
  lastFrameTime : ℚ
  targetFPS : ℚ
  decodeLog : List String

/-- The composite guard `!this.myPlayerId || !this.players[this.myPlayerId]`:
the local player, when the id is set, non-falsy (a JS string is falsy
exactly when empty) and present in the roster. -/
def resolveLocal (s : GameState) : Option Player :=
  match s.myPlayerId with
  | none => none
  | some id => if id = "" then none else s.players id

/-- `updateCamera` (game.js lines 721-737): center on the local player,
then clamp each axis independently, only when the world is larger than
the canvas on that axis. -/
def updateCamera (s : GameState) : GameState :=
  match resolveLocal s with
  | none => s
  | some myPlayer =>
    let cx := myPlayer.x - s.canvasWidth / 2
    let cy := myPlayer.y - s.canvasHeight / 2
    let cx' := if s.worldWidth > s.canvasWidth
      then max 0 (min cx (s.worldWidth - s.canvasWidth)) else cx
    let cy' := if s.worldHeight > s.canvasHeight
      then max 0 (min cy (s.worldHeight - s.canvasHeight)) else cy
    { s with cameraX := cx', cameraY := cy' }

/-- The directions of the currently held arrow keys, in the order
`sendMoveCommand` collects them (up, down, left, right). -/
def pressedDirections (s : GameState) : List Direction :=
  (if s.keyUp then [Direction.up] else []) ++
  (if s.keyDown then [Direction.down] else []) ++
  (if s.keyLeft then [Direction.left] else []) ++
  (if s.keyRight then [Direction.right] else [])

/-- `sendMoveCommand` (game.js lines 584-618): guarded by
`websocket && readyState === OPEN`; emits one `move` per held direction
and raises `isMoving` when any direction is held.  The second component
is the list of messages handed to `websocket.send`. -/
def sendMoveCommand (s : GameState) : GameState × List OutMsg :=
  if s.websocket = some WsState.open then
    let directions := pressedDirections s
    ({ s with isMoving := if directions.length > 0 then true else s.isMoving },
     directions.map OutMsg.move)
  else (s, [])

/-- `sendStopCommand` (game.js lines 620-631): guarded the same way;
emits `stop` and clears `isMoving`. -/
def sendStopCommand (s : GameState) : GameState × List OutMsg :=
  if s.websocket = some WsState.open then
    ({ s with isMoving := false }, [OutMsg.stop])
  else (s, [])

/-- The transport collaborator of spec section 6: `send(text)` transmits
while the socket is open and "may fail silently if not open" (a closed
or absent socket transmits nothing and raises no error).  The WebSocket
itself is not repository code; this is its specified interface. -/
def transportSend (ws : Option WsState) (ms : List OutMsg) : List OutMsg :=
  if ws = some WsState.open then ms else []

/-- The outcome of one homing re-evaluation: the mutated client state,
the messages handed to `websocket.send`, and the `setTimeout` delay when
the step rescheduled itself. -/
structure HomingResult where
  state : GameState
  sent : List OutMsg
  rescheduleMs : Option ℚ

/-- `startMovingToTarget` (game.js lines 513-551).  The arrival test
`Math.sqrt(dx*dx + dy*dy) < 20` is embedded as `dx*dx + dy*dy < 400`,
equivalent since the radicand is nonnegative. -/
def startMovingToTarget (s : GameState) : HomingResult :=
  match s.clickTarget, resolveLocal s with
  | some target, some myPlayer =>
    let deltaX := target.1 - myPlayer.x
    let deltaY := target.2 - myPlayer.y
    let distSq := deltaX * deltaX + deltaY * deltaY
    if distSq < 400 then
      let s1 := { s with clickTarget := none }
      let r := sendStopCommand s1
      ⟨r.1, r.2, none⟩
    else
      let direction := if |deltaX| > |deltaY|
        then (if deltaX > 0 then Direction.right else Direction.left)
        else (if deltaY > 0 then Direction.down else Direction.up)
      ⟨{ s with isMoving := true }, [OutMsg.move direction], some 200⟩
  | _, _ => ⟨s, [], none⟩

/-- `sendClickMoveCommand` (game.js lines 503-511): guarded like the
other senders; stores the target again and starts the homing loop. -/
def sendClickMoveCommand (s : GameState) (x y : ℚ) : HomingResult :=
  if s.websocket = some WsState.open then
    startMovingToTarget { s with clickTarget := some (x, y) }
  else ⟨s, [], none⟩

/-- `handleCanvasClick` (game.js lines 486-501): screen-to-world via the
camera offset, clamp into the world rectangle, store the target, then
`sendClickMoveCommand`. -/
def handleCanvasClick (s : GameState) (clickX clickY : ℚ) : HomingResult :=
  let worldX := clickX + s.cameraX
  let worldY := clickY + s.cameraY
  let clampedX := max 0 (min worldX s.worldWidth)
  let clampedY := max 0 (min worldY s.worldHeight)
  sendClickMoveCommand { s with clickTarget := some (clampedX, clampedY) }
    clampedX clampedY

/-- One invocation of the `gameLoop` callback (game.js lines 633-648)
at clock value `currentTime`: the new state and how many update+draw
passes ran (`update` calls `updateCamera`; `draw` mutates no state). -/
def gameLoopTick (s : GameState) (currentTime : ℚ) : GameState × ℕ :=
  let deltaTime := currentTime - s.lastFrameTime
  let targetFrameTime := 1000 / s.targetFPS
  if deltaTime ≥ targetFrameTime then
    let s1 := updateCamera s
    ({ s1 with lastFrameTime := currentTime }, 1)
  else (s, 0)

/-- The avatar names an invocation of `parseAvatarImages` would start
decoding: exactly the catalog entries with no `parsedFrames` marker. -/
def decodeStarted (avatars : List (String × Avatar)) : List String :=
  (avatars.filter (fun kv => kv.2.parsedFrames.isNone)).map Prod.fst

/-- The per-entry body of `parseAvatarImages`: an unmarked entry gets
its `parsedFrames` built from `frames` (one `Image` per base64 frame,
same directions and indices); a marked entry is left untouched. -/
def markAvatar (kv : String × Avatar) : String × Avatar :=
  if kv.2.parsedFrames.isSome then kv
  else (kv.1, { kv.2 with parsedFrames := some kv.2.frames })

/-- `parseAvatarImages` (game.js lines 693-719): scan the catalog in
insertion order; decode every avatar not yet carrying the marker.
`decodeLog` records the names whose decoding was started. -/
def parseAvatarImages (s : GameState) : GameState :=
  { s with avatars := s.avatars.map markAvatar,
           decodeLog := s.decodeLog ++ decodeStarted s.avatars }

/-- JS property assignment on a string-keyed object: an existing key is
overwritten in place (insertion order kept), a new key is appended. -/
def setKey (m : List (String × Avatar)) (k : String) (v : Avatar) :
    List (String × Avatar) :=
  if (m.lookup k).isSome then
    m.map (fun kv => if kv.1 = k then (k, v) else kv)
  else m ++ [(k, v)]

/-- `Object.assign(this.players, message.players)` seen per id: an id
present in the delta is overwritten wholesale, an absent id keeps the
store's entry. -/
def mergePlayers (store delta : String → Option Player) :
    String → Option Player :=
  fun id => match delta id with
  | some p => some p
  | none => store id

/-- An inbound server message, one constructor per `action` value the
dispatch recognizes, plus the fallback. -/
inductive InMsg
  | joinGame (success : Bool) (playerId : String)
      (players : String → Option Player)
      (avatars : List (String × Frames)) (err : String)
  | playerJoined (player : Player) (avatarName : String)
      (avatarFrames : Frames)
  | playersMoved (players : String → Option Player)
  | playerLeft (playerId : String)
  | unknown (action : String)

/-- `handleServerMessage` (game.js lines 658-691).  A failed
`join_game` only logs (`console.error`) and mutates nothing; wire
avatar definitions arrive without a `parsedFrames` marker. -/
def handleServerMessage (s : GameState) (msg : InMsg) : GameState :=
  match msg with
  | .joinGame success playerId players avatars _err =>
    if success then
      let s1 := { s with myPlayerId := some playerId,
                         players := players,
                         avatars := avatars.map (fun kv => (kv.1, ⟨kv.2, none⟩)) }
      updateCamera (parseAvatarImages s1)
    else s
  | .playerJoined player avatarName avatarFrames =>
    let s1 := { s with
      players := fun i => if i = player.id then some player else s.players i,
      avatars := setKey s.avatars avatarName ⟨avatarFrames, none⟩ }
    parseAvatarImages s1
  | .playersMoved delta =>
    updateCamera { s with players := mergePlayers s.players delta }
  | .playerLeft playerId =>
    { s with players := fun i => if i = playerId then none else s.players i }
  | .unknown _ => s

/-- A 2D canvas transform as set by `setTransform(a, b, c, d, e, f)`. -/
structure Mat2D where
  a : ℚ
  b : ℚ
  c : ℚ
  d : ℚ
  e : ℚ
  f : ℚ

/-- The device-space x coordinate of user-space point `(x, y)`. -/
def Mat2D.applyX (m : Mat2D) (x y : ℚ) : ℚ := m.a * x + m.c * y + m.e

/-- `player.facing === 'west' ? 'east' : player.facing`. -/
def resolveDirection : Facing → FrameDir
  | .west => .east
  | .north => .north
  | .south => .south
  | .east => .east

/-- `avatar.parsedFrames[direction]`. -/
def framesFor (pf : Frames) : FrameDir → List Image
  | .north => pf.north
  | .south => pf.south
  | .east => pf.east

/-- What one `drawAvatar` sprite blit does: which frame set it indexed
and, in device space, where the drawn rectangle's left and right edges
landed (`devX1` is the image of the rectangle's left edge, `devX2` of
its right edge). -/
structure DrawOp where
  direction : FrameDir
  width : ℚ
  height : ℚ
  devX1 : ℚ
  devX2 : ℚ
deriving DecidableEq, Repr

/-- `drawAvatar` (game.js lines 746-821), up to the sprite blit: `none`
when the sprite is skipped (missing catalog entry, no marker, culled,
missing frame), otherwise the geometry of the blit.  The west branch
runs `setTransform(-1, 0, 0, 1, screenX, 0)` and draws the rectangle at
user-space x `-avatarWidth / 2`; the other facings draw it directly at
`screenX - avatarWidth / 2`. -/
def drawAvatar (s : GameState) (player : Player) : Option DrawOp :=
  match s.avatars.lookup player.avatar with
  | none => none
  | some avatar =>
    match avatar.parsedFrames with
    | none => none
    | some parsed =>
      let screenX := player.x - s.cameraX
      let screenY := player.y - s.cameraY
      if screenX < -50 ∨ screenX > s.canvasWidth + 50 ∨
         screenY < -50 ∨ screenY > s.canvasHeight + 50 then none
      else
        let direction := resolveDirection player.facing
        let frames := framesFor parsed direction
        match frames.get? player.animationFrame with
        | none => none
        | some avatarImg =>
          let maxSize : ℚ := 32
          let aspect := avatarImg.width / avatarImg.height
          let avatarWidth := if aspect > 1 then maxSize else maxSize * aspect
          let avatarHeight := if aspect > 1 then maxSize / aspect else maxSize
          if player.facing = .west then
            let t : Mat2D := ⟨-1, 0, 0, 1, screenX, 0⟩
            some ⟨direction, avatarWidth, avatarHeight,
              t.applyX (-(avatarWidth / 2)) (screenY - avatarHeight / 2),
              t.applyX (-(avatarWidth / 2) + avatarWidth) (screenY - avatarHeight / 2)⟩
          else
            some ⟨direction, avatarWidth, avatarHeight,
              screenX - avatarWidth / 2,
              screenX - avatarWidth / 2 + avatarWidth⟩

theorem updateCamera_eq (s : GameState) (p : Player)
    (hp : resolveLocal s = some p) :
    updateCamera s = { s with
      cameraX := if s.worldWidth > s.canvasWidth
        then max 0 (min (p.x - s.canvasWidth / 2) (s.worldWidth - s.canvasWidth))
        else p.x - s.canvasWidth / 2,
      cameraY := if s.worldHeight > s.canvasHeight
        then max 0 (min (p.y - s.canvasHeight / 2) (s.worldHeight - s.canvasHeight))
        else p.y - s.canvasHeight / 2 } := by
  unfold updateCamera
  rw [hp]

/-- C1: `updateCamera` with a resolvable local player centers each axis
on the player (`cameraX = p.x - canvasWidth / 2`) and then clamps that
axis into `[0, worldDim - viewportDim]` exactly when the world is
larger than the viewport on it; on an axis where the world is not
larger, the offset is left at the unclamped centered value.  In
particular, when the world is larger on an axis the output lies in
`[0, worldDim - viewportDim]`. -/
theorem camera_centers_then_clamps (s : GameState) (p : Player)
    (hp : resolveLocal s = some p) :
    (s.canvasWidth < s.worldWidth →
        0 ≤ (updateCamera s).cameraX ∧
        (updateCamera s).cameraX ≤ s.worldWidth - s.canvasWidth ∧
        (updateCamera s).cameraX =
          max 0 (min (p.x - s.canvasWidth / 2) (s.worldWidth - s.canvasWidth))) ∧
    (s.worldWidth ≤ s.canvasWidth →
        (updateCamera s).cameraX = p.x - s.canvasWidth / 2) ∧
    (s.canvasHeight < s.worldHeight →
        0 ≤ (updateCamera s).cameraY ∧
        (updateCamera s).cameraY ≤ s.worldHeight - s.canvasHeight ∧
        (updateCamera s).cameraY =
          max 0 (min (p.y - s.canvasHeight / 2) (s.worldHeight - s.canvasHeight))) ∧
    (s.worldHeight ≤ s.canvasHeight →
        (updateCamera s).cameraY = p.y - s.canvasHeight / 2) := by
  rw [updateCamera_eq s p hp]
  refine ⟨fun hW => ?_, fun hW => ?_, fun hH => ?_, fun hH => ?_⟩
  · simp only [if_pos hW]
    exact ⟨le_max_left _ _, max_le (by linarith) (min_le_right _ _), trivial⟩
  · simp only [if_neg (not_lt.mpr hW)]
  · simp only [if_pos hH]
    exact ⟨le_max_left _ _, max_le (by linarith) (min_le_right _ _), trivial⟩
  · simp only [if_neg (not_lt.mpr hH)]

/-- The local player of the concrete states below. -/
def pJoe : Player :=
  { id := "me", x := 1000, y := 40, facing := Facing.south,
    animationFrame := 0, username := "joe", avatar := "a" }

/-- A concrete client state: 2048-square world, 800 by 600 canvas, the
local player `pJoe` present and resolvable. -/
def sCam : GameState :=
  { worldWidth := 2048, worldHeight := 2048,
    myPlayerId := some "me",
    players := fun i => if i = "me" then some pJoe else none,
    avatars := [], websocket := some WsState.open,
    cameraX := 0, cameraY := 0,
    canvasWidth := 800, canvasHeight := 600,
    keyUp := false, keyDown := false, keyLeft := false, keyRight := false,
    isMoving := false, clickTarget := none,
    connectionStatus := ConnStatus.connected,
    lastFrameTime := 0, targetFPS := 60,
    decodeLog := [] }

/-- Witness for C1 at the concrete state `sCam`. -/
theorem camera_centers_then_clamps_witness :
    0 ≤ (updateCamera sCam).cameraX ∧
    (updateCamera sCam).cameraX ≤ 2048 - 800 := by
  have h := camera_centers_then_clamps sCam pJoe rfl
  have hx := h.1 (by norm_num [sCam])
  exact ⟨hx.1, hx.2.1⟩

/-- C9: a call to `updateCamera` while no local player is resolvable
(the id is unset, or no player with that id is in the roster) leaves
the whole state unchanged. -/
theorem updateCamera_noop_without_local (s : GameState)
    (h : s.myPlayerId = none ∨
      ∀ id, s.myPlayerId = some id → s.players id = none) :
    updateCamera s = s := by
  have hres : resolveLocal s = none := by
    unfold resolveLocal
    rcases hm : s.myPlayerId with _ | id
    · rfl
    · rcases h with h | h
      · rw [hm] at h
        exact absurd h (by simp)
      · show (if id = "" then none else s.players id) = none
        rw [h id hm]
        split <;> rfl
  unfold updateCamera
  rw [hres]

/-- The concrete state `sCam` with the local id unset. -/
def sNoLocal : GameState := { sCam with myPlayerId := none }

/-- Witness for C9 at the concrete state `sNoLocal`. -/
theorem updateCamera_noop_witness : updateCamera sNoLocal = sNoLocal :=
  updateCamera_noop_without_local sNoLocal (Or.inl rfl)

theorem updateCamera_players (s : GameState) :
    (updateCamera s).players = s.players := by
  unfold updateCamera
  cases resolveLocal s <;> rfl

/-- C2: applying a `players_moved` delta leaves every id absent from the
delta bound exactly as before in the roster, and every id present in
the delta bound to the delta's entire entry (shallow per-id overwrite,
not a field-by-field merge). -/
theorem players_moved_shallow_overwrite (s : GameState)
    (delta : String → Option Player) (id : String) :
    (delta id = none →
      (handleServerMessage s (InMsg.playersMoved delta)).players id
        = s.players id) ∧
    (∀ p, delta id = some p →
      (handleServerMessage s (InMsg.playersMoved delta)).players id
        = some p) := by
  have hpl : (handleServerMessage s (InMsg.playersMoved delta)).players
      = mergePlayers s.players delta := by
    show (updateCamera _).players = _
    rw [updateCamera_players]
  constructor
  · intro h
    simp only [hpl, mergePlayers, h]
  · intro p h
    simp only [hpl, mergePlayers, h]

/-- C4: one tick of the render-loop callback performs zero update+draw
passes and keeps the last-frame timestamp when the elapsed time is
strictly below `1000 / targetFPS`, and performs exactly one pass and
stamps the current time when the elapsed time is at or above it. -/
theorem gameLoop_tick_throttles (s : GameState) (t : ℚ) :
    (t - s.lastFrameTime < 1000 / s.targetFPS → gameLoopTick s t = (s, 0)) ∧
    (1000 / s.targetFPS ≤ t - s.lastFrameTime →
      (gameLoopTick s t).2 = 1 ∧ (gameLoopTick s t).1.lastFrameTime = t) := by
  constructor
  · intro h
    unfold gameLoopTick
    rw [if_neg (not_le.mpr h)]
  · intro h
    unfold gameLoopTick
    rw [if_pos h]
    exact ⟨rfl, rfl⟩

/-- C7 (amended): a `join_game` message with `success = false` leaves
the whole client state unchanged — the handler only logs.  In
particular the local id, roster, avatar catalog, camera and
`connectionStatus` are untouched; no transition to the `error`
status occurs. -/
theorem join_failure_leaves_state_unchanged (s : GameState)
    (playerId : String) (players : String → Option Player)
    (avatars : List (String × Frames)) (err : String) :
    handleServerMessage s (InMsg.joinGame false playerId players avatars err)
      = s := rfl

/-- C7 counterexample to the claim as stated: at the concrete connected
state `sCam`, handling a failed join leaves `connectionStatus` at
`connected`; it does not enter the `error` status. -/
theorem join_failure_no_error_transition :
    (handleServerMessage sCam
        (InMsg.joinGame false "" (fun _ => none) [] "denied")).connectionStatus
      = ConnStatus.connected ∧
    ConnStatus.connected ≠ ConnStatus.error :=
  ⟨rfl, by decide⟩

/-- C6: while the transport is not in the open state, every outbound
command emission is silently dropped: the guarded senders hand nothing
to `websocket.send` and leave the state untouched, and the homing
loop's inline move, like everything else passed to the transport,
results in no transmitted message (`transportSend` is the transport's
specified fail-silently interface).  Nothing is queued and nothing is
retried: the model keeps no send buffer. -/
theorem sends_dropped_when_not_open (s : GameState)
    (h : ¬s.websocket = some WsState.open) :
    sendMoveCommand s = (s, []) ∧
    sendStopCommand s = (s, []) ∧
    transportSend s.websocket (startMovingToTarget s).sent = [] ∧
    transportSend s.websocket (sendMoveCommand s).2 = [] ∧
    transportSend s.websocket (sendStopCommand s).2 = [] := by
  have ht : ∀ ms, transportSend s.websocket ms = [] := by
    intro ms
    unfold transportSend
    rw [if_neg h]
  refine ⟨?_, ?_, ht _, ht _, ht _⟩
  · unfold sendMoveCommand
    rw [if_neg h]
  · unfold sendStopCommand
    rw [if_neg h]

/-- The concrete state `sCam` with a closed socket, a held right-arrow
key and a pending far-away homing target. -/
def sClosed : GameState :=
  { sCam with websocket := some WsState.closed,
              keyRight := true,
              clickTarget := some (2000, 40) }

/-- Witness for C6 at the concrete closed-socket state `sClosed`. -/
theorem sends_dropped_witness :
    sendMoveCommand sClosed = (sClosed, []) ∧
    transportSend sClosed.websocket (startMovingToTarget sClosed).sent
      = [] := by
  have h := sends_dropped_when_not_open sClosed (by simp [sClosed, sCam])
  exact ⟨h.1, h.2.2.1⟩

/-- C5: one homing re-evaluation with a target set, a resolvable local
player and an open socket: when the Euclidean distance to the target is
under 20 world units the target is cleared, exactly a `stop` goes out
and nothing is rescheduled; otherwise exactly one `move` goes out along
the dominant axis of the delta and the step reschedules itself after
200 ms, keeping the target. -/
theorem homing_step (s : GameState) (target : ℚ × ℚ) (p : Player)
    (ht : s.clickTarget = some target) (hp : resolveLocal s = some p)
    (hws : s.websocket = some WsState.open) :
    (Real.sqrt (((target.1 - p.x : ℚ) : ℝ) ^ 2 + ((target.2 - p.y : ℚ) : ℝ) ^ 2)
        < 20 →
      (startMovingToTarget s).state.clickTarget = none ∧
      (startMovingToTarget s).sent = [OutMsg.stop] ∧
      (startMovingToTarget s).rescheduleMs = none) ∧
    (20 ≤ Real.sqrt
        (((target.1 - p.x : ℚ) : ℝ) ^ 2 + ((target.2 - p.y : ℚ) : ℝ) ^ 2) →
      (startMovingToTarget s).sent =
        [OutMsg.move (if |target.1 - p.x| > |target.2 - p.y|
          then (if target.1 - p.x > 0 then Direction.right else Direction.left)
          else (if target.2 - p.y > 0 then Direction.down else Direction.up))] ∧
      (startMovingToTarget s).rescheduleMs = some 200 ∧
      (startMovingToTarget s).state.clickTarget = some target) := by
  set dx := target.1 - p.x with hdx
  set dy := target.2 - p.y with hdy
  have hcast : ((dx * dx + dy * dy : ℚ) : ℝ) = (dx : ℝ) ^ 2 + (dy : ℝ) ^ 2 := by
    push_cast
    ring
  have key : Real.sqrt ((dx : ℝ) ^ 2 + (dy : ℝ) ^ 2) < 20 ↔
      dx * dx + dy * dy < 400 := by
    rw [Real.sqrt_lt' (by norm_num : (0 : ℝ) < 20), ← hcast,
      show ((20 : ℝ)) ^ 2 = ((400 : ℚ) : ℝ) by norm_num]
    exact Rat.cast_lt
  have hred : startMovingToTarget s =
      (if dx * dx + dy * dy < 400 then
        let s1 := { s with clickTarget := none }
        let r := sendStopCommand s1
        ⟨r.1, r.2, none⟩
      else
        ⟨{ s with isMoving := true },
          [OutMsg.move (if |dx| > |dy|
            then (if dx > 0 then Direction.right else Direction.left)
            else (if dy > 0 then Direction.down else Direction.up))],
          some 200⟩ : HomingResult) := by
    unfold startMovingToTarget
    rw [ht, hp]
  constructor
  · intro hsq
    have hlt := key.mp hsq
    rw [hred, if_pos hlt]
    unfold sendStopCommand
    dsimp only
    rw [if_pos hws]
    exact ⟨rfl, rfl, rfl⟩
  · intro hsq
    have hge : ¬dx * dx + dy * dy < 400 := fun hq =>
      absurd (key.mpr hq) (not_lt.mpr hsq)
    rw [hred, if_neg hge]
    exact ⟨rfl, rfl, ht⟩

/-- The concrete state `sCam` with a homing target at the local
player's own position (distance 0, inside the 20-unit arrival radius). -/
def sHoming : GameState := { sCam with clickTarget := some (1000, 40) }

/-- Witness for C5 at the concrete state `sHoming`. -/
theorem homing_step_witness :
    (startMovingToTarget sHoming).sent = [OutMsg.stop] ∧
    (startMovingToTarget sHoming).state.clickTarget = none := by
  have h := homing_step sHoming (1000, 40) pJoe rfl rfl rfl
  have h1 := h.1 (by norm_num [pJoe, Real.sqrt_zero])
  exact ⟨h1.2.1, h1.1⟩

theorem homing_target_cases (s : GameState) :
    ((startMovingToTarget s).state.clickTarget = s.clickTarget ∨
      (startMovingToTarget s).state.clickTarget = none) ∧
    (startMovingToTarget s).state.worldWidth = s.worldWidth ∧
    (startMovingToTarget s).state.worldHeight = s.worldHeight := by
  unfold startMovingToTarget
  rcases hct : s.clickTarget with _ | t <;>
    rcases hr : resolveLocal s with _ | p <;>
    dsimp only
  · exact ⟨Or.inl hct, rfl, rfl⟩
  · exact ⟨Or.inl hct, rfl, rfl⟩
  · exact ⟨Or.inl hct, rfl, rfl⟩
  · by_cases hd :
      (t.1 - p.x) * (t.1 - p.x) + (t.2 - p.y) * (t.2 - p.y) < 400
    · rw [if_pos hd]
      unfold sendStopCommand
      dsimp only
      split_ifs <;> exact ⟨Or.inr rfl, rfl, rfl⟩
    · rw [if_neg hd]
      exact ⟨Or.inl rfl, rfl, rfl⟩

/-- The world coordinate a canvas click at screen point `(x, y)`
stores: `screen + camera`, clamped into the world rectangle. -/
def clampedClick (s : GameState) (x y : ℚ) : ℚ × ℚ :=
  (max 0 (min (x + s.cameraX) s.worldWidth),
   max 0 (min (y + s.cameraY) s.worldHeight))

/-- The click-target invariant of C10: a set target lies inside the
world rectangle of the same state. -/
def targetInBounds (s : GameState) : Prop :=
  ∀ t : ℚ × ℚ, s.clickTarget = some t →
    0 ≤ t.1 ∧ t.1 ≤ s.worldWidth ∧ 0 ≤ t.2 ∧ t.2 ≤ s.worldHeight

theorem homing_preserves_inBounds (s : GameState) (h : targetInBounds s) :
    targetInBounds (startMovingToTarget s).state := by
  intro t htEq
  have hcases := homing_target_cases s
  rcases hcases.1 with hkeep | hclear
  · rw [htEq] at hkeep
    have hb := h t hkeep.symm
    rw [hcases.2.1, hcases.2.2]
    exact hb
  · rw [htEq] at hclear
    exact absurd hclear (by simp)

/-- C10: a canvas click establishes the click-target invariant — the
clicked world coordinate is clamped into `[0, worldDim]` on both axes
before it is stored, and the homing call the click triggers at most
clears the target again — and one homing re-evaluation preserves the
invariant (it keeps the target or clears it, and touches no world
dimension). -/
theorem clickTarget_in_bounds (s : GameState) (x y : ℚ)
    (hW : 0 ≤ s.worldWidth) (hH : 0 ≤ s.worldHeight) :
    targetInBounds (handleCanvasClick s x y).state ∧
    (targetInBounds s → targetInBounds (startMovingToTarget s).state) := by
  refine ⟨?_, fun h => homing_preserves_inBounds s h⟩
  unfold handleCanvasClick sendClickMoveCommand
  dsimp only
  have hbase : targetInBounds
      { s with clickTarget := some (clampedClick s x y) } := by
    intro t htEq
    have ht' : clampedClick s x y = t := by simpa using htEq
    subst ht'
    unfold clampedClick
    dsimp only
    exact ⟨le_max_left _ _, max_le hW (min_le_right _ _),
      le_max_left _ _, max_le hH (min_le_right _ _)⟩
  split_ifs with hw
  · exact homing_preserves_inBounds _ hbase
  · exact hbase

/-- Witness for C10 at the concrete state `sCam`, clicked at screen
point (10, 10). -/
theorem clickTarget_in_bounds_witness :
    targetInBounds (handleCanvasClick sCam 10 10).state ∧
    (targetInBounds sCam →
      targetInBounds (startMovingToTarget sCam).state) :=
  clickTarget_in_bounds sCam 10 10 (by norm_num [sCam]) (by norm_num [sCam])

theorem markAvatar_fst (kv : String × Avatar) : (markAvatar kv).1 = kv.1 := by
  unfold markAvatar
  split <;> rfl

theorem markAvatar_of_marked (kv : String × Avatar)
    (h : kv.2.parsedFrames.isSome) : markAvatar kv = kv := by
  unfold markAvatar
  rw [if_pos h]

theorem markAvatar_isSome (kv : String × Avatar) :
    (markAvatar kv).2.parsedFrames.isSome := by
  unfold markAvatar
  rcases h : kv.2.parsedFrames with _ | f
  · rw [if_neg (by simp [h])]
    rfl
  · rw [if_pos (by simp [h])]
    simp [h]

theorem markAvatar_not_isNone (kv : String × Avatar) :
    (markAvatar kv).2.parsedFrames.isNone = false := by
  have hs := markAvatar_isSome kv
  rcases h : (markAvatar kv).2.parsedFrames with _ | f
  · rw [h] at hs
    simp at hs
  · rfl

theorem decodeStarted_map_mark (l : List (String × Avatar)) :
    decodeStarted (l.map markAvatar) = [] := by
  induction l with
  | nil => rfl
  | cons kv tl ih =>
    rw [List.map_cons]
    unfold decodeStarted at ih ⊢
    rw [List.filter_cons_of_neg (by simp [markAvatar_not_isNone])]
    exact ih

theorem lookup_map_mark (l : List (String × Avatar)) (name : String)
    (av : Avatar) (hm : av.parsedFrames.isSome) :
    l.lookup name = some av → (l.map markAvatar).lookup name = some av := by
  induction l with
  | nil =>
    intro hl
    simp [List.lookup] at hl
  | cons kv tl ih =>
    obtain ⟨k, v⟩ := kv
    intro hl
    rw [List.lookup_cons] at hl
    rw [List.map_cons]
    cases hbeq : (name == k)
    · simp only [hbeq] at hl
      have hfst := markAvatar_fst (k, v)
      rcases he : markAvatar (k, v) with ⟨k', v'⟩
      rw [he] at hfst
      dsimp at hfst
      subst hfst
      rw [List.lookup_cons]
      simp only [hbeq]
      exact ih hl
    · simp only [hbeq] at hl
      have hv : v = av := Option.some.inj hl
      subst hv
      rw [markAvatar_of_marked (k, v) hm, List.lookup_cons]
      simp only [hbeq]

theorem lookup_eq_of_mem (l : List (String × Avatar)) (name : String)
    (hnd : (l.map Prod.fst).Nodup) (kv : String × Avatar)
    (hkv : kv ∈ l) (hfst : kv.1 = name) : l.lookup name = some kv.2 := by
  induction l with
  | nil => cases hkv
  | cons hd tl ih =>
    obtain ⟨k, v⟩ := hd
    rw [List.map_cons] at hnd
    obtain ⟨hkn, hndtl⟩ := List.nodup_cons.mp hnd
    rw [List.lookup_cons]
    rcases List.mem_cons.mp hkv with rfl | hmem
    · have hb : (name == k) = true := by
        simp [show name = k from hfst.symm]
      simp only [hb]
    · have hname_mem : name ∈ tl.map Prod.fst :=
        hfst ▸ List.mem_map_of_mem _ hmem
      have hk_ne : (name == k) = false :=
        beq_eq_false_iff_ne.mpr fun h => hkn (h ▸ hname_mem)
      simp only [hk_ne]
      exact ih hndtl hmem

theorem not_mem_decodeStarted (l : List (String × Avatar)) (name : String)
    (av : Avatar) (hm : av.parsedFrames.isSome) :
    (l.map Prod.fst).Nodup → l.lookup name = some av →
      name ∉ decodeStarted l := by
  intro hnd hl hmem
  unfold decodeStarted at hmem
  rcases List.mem_map.mp hmem with ⟨kv, hkvmem, hfst⟩
  have hkv_l : kv ∈ l := List.mem_of_mem_filter hkvmem
  have hpn : kv.2.parsedFrames.isNone = true := (List.mem_filter.mp hkvmem).2
  have hlook := lookup_eq_of_mem l name hnd kv hkv_l hfst
  rw [hl] at hlook
  have hav : av = kv.2 := Option.some.inj hlook
  rw [← hav] at hpn
  rcases hx : av.parsedFrames with _ | f
  · rw [hx] at hm
    simp at hm
  · rw [hx] at hpn
    simp at hpn

/-- C8 (amended): the decode pass is idempotent per surviving cache
entry: while an avatar's entry carries the has-parsed-frames marker
(and catalog keys are unique, as JS object keys are), re-running
`parseAvatarImages` starts no new decoding for that avatar, leaves its
entry unchanged, and a pass over an already-processed catalog starts
nothing at all.  The at-most-once guarantee holds only per cache entry:
`join_game` and `player_joined` replace the entry for a mentioned
avatar name with a fresh unmarked one, after which that name is decoded
again (see the counterexample). -/
theorem decode_pass_skips_marked (s : GameState) (name : String)
    (av : Avatar) (hnd : (s.avatars.map Prod.fst).Nodup)
    (hl : s.avatars.lookup name = some av)
    (hm : av.parsedFrames.isSome) :
    name ∉ decodeStarted s.avatars ∧
    (parseAvatarImages s).avatars.lookup name = some av ∧
    decodeStarted (parseAvatarImages s).avatars = [] := by
  refine ⟨not_mem_decodeStarted s.avatars name av hm hnd hl, ?_, ?_⟩
  · show (s.avatars.map markAvatar).lookup name = some av
    exact lookup_map_mark s.avatars name av hm hl
  · show decodeStarted (s.avatars.map markAvatar) = []
    exact decodeStarted_map_mark s.avatars

/-- The frame table of the concrete avatar named "a". -/
def framesA : Frames :=
  { north := [], south := [], east := [⟨"blob0", 32, 32⟩] }

/-- The concrete state `sCam` with avatar "a" already decoded (its
cache entry carries the marker) and that decode recorded in the log. -/
def sDecoded : GameState :=
  { sCam with avatars := [("a", ⟨framesA, some framesA⟩)],
              decodeLog := ["a"] }

/-- Witness for C8's amended theorem at the concrete state `sDecoded`. -/
theorem decode_pass_skips_marked_witness :
    "a" ∉ decodeStarted sDecoded.avatars ∧
    (parseAvatarImages sDecoded).avatars.lookup "a"
      = some ⟨framesA, some framesA⟩ ∧
    decodeStarted (parseAvatarImages sDecoded).avatars = [] :=
  decode_pass_skips_marked sDecoded "a" ⟨framesA, some framesA⟩
    (by decide) rfl rfl

/-- Another player, joining with the already-decoded avatar "a". -/
def pKim : Player := { pJoe with id := "p2", username := "kim" }

/-- C8 counterexample to the claim as stated: in `sDecoded` the cache
entry for "a" carries the marker, yet handling a `player_joined` that
mentions avatar "a" replaces the entry and the decode pass run by the
handler starts decoding "a" a second time (the decode log grows from
`["a"]` to `["a", "a"]`). -/
theorem player_joined_restarts_decode :
    sDecoded.avatars.lookup "a" = some ⟨framesA, some framesA⟩ ∧
    (Avatar.parsedFrames ⟨framesA, some framesA⟩).isSome = true ∧
    (handleServerMessage sDecoded
        (InMsg.playerJoined pKim "a" framesA)).decodeLog = ["a", "a"] :=
  ⟨rfl, rfl, rfl⟩

/-- C3: whenever `drawAvatar` draws a west-facing player, the frame it
indexed comes from the east frame set, and the blit is mirrored about
the sprite's own screen-space center: the drawn rectangle's left edge
lands at `screenX + width / 2`, its right edge at `screenX - width / 2`
(the edges swap sides — a true mirror), so the drawn horizontal extent
is `[screenX - width / 2, screenX + width / 2]`, centered at
`screenX = player.x - cameraX`, not at the canvas origin's mirror
image. -/
theorem drawAvatar_west_mirrors (s : GameState) (player : Player)
    (op : DrawOp) (hf : player.facing = Facing.west)
    (hd : drawAvatar s player = some op) :
    op.direction = FrameDir.east ∧
    op.devX1 = (player.x - s.cameraX) + op.width / 2 ∧
    op.devX2 = (player.x - s.cameraX) - op.width / 2 ∧
    (op.devX1 + op.devX2) / 2 = player.x - s.cameraX := by
  unfold drawAvatar at hd
  rcases hl : s.avatars.lookup player.avatar with _ | avatar
  · rw [hl] at hd
    simp at hd
  rw [hl] at hd
  dsimp only at hd
  rcases hpf : avatar.parsedFrames with _ | parsed
  · rw [hpf] at hd
    simp at hd
  rw [hpf] at hd
  dsimp only at hd
  rw [hf] at hd
  simp only [resolveDirection] at hd
  split at hd
  · simp at hd
  · split at hd
    · simp at hd
    · split at hd
      · have hop := Option.some.inj hd
        subst hop
        unfold Mat2D.applyX
        dsimp only
        refine ⟨rfl, by ring, by ring, by ring⟩
      · next hne => exact absurd trivial hne

/-- A west-facing player at world (500, 500) wearing avatar "a". -/
def pWest : Player :=
  { pJoe with id := "w1", x := 500, y := 500, facing := Facing.west,
              avatar := "a" }

/-- The concrete state `sCam` (camera at (0, 0)) with avatar "a"
decoded. -/
def sDraw : GameState :=
  { sCam with avatars := [("a", ⟨framesA, some framesA⟩)] }

/-- The blit `drawAvatar` performs for `pWest` in `sDraw`. -/
def opWest : DrawOp :=
  ⟨FrameDir.east, 32, 32, 516, 484⟩

/-- Witness for C3 at the concrete state `sDraw`: the west-facing
sprite at world (500, 500) under camera (0, 0) is drawn from the east
frames over the x-extent [484, 516], centered at screen x = 500. -/
theorem drawAvatar_west_witness :
    drawAvatar sDraw pWest = some opWest ∧
    opWest.direction = FrameDir.east ∧
    (opWest.devX1 + opWest.devX2) / 2 = 500 := by
  have hda : drawAvatar sDraw pWest = some opWest := by
    norm_num [drawAvatar, sDraw, sCam, pWest, pJoe, framesA, opWest,
      resolveDirection, framesFor, Mat2D.applyX, List.lookup]
  have h := drawAvatar_west_mirrors sDraw pWest opWest rfl hda
  refine ⟨hda, h.1, ?_⟩
  have h4 := h.2.2.2
  simpa [pWest, pJoe, sDraw, sCam] using h4
